import Mathlib

/-!
Verification of the captcha recognition HTTP service (src/app.py and
src/server.py) against its natural-language specification.

The development shallowly embeds the core pipeline of both entry points:

* base64 header stripping, whitespace stripping and padding correction
  (`validate_base64` in src/app.py lines 83-89 and src/server.py lines 68-89);
* the non-strict base64 decode used by CPython's `base64.b64decode`
  (default `validate=False`), since `decode_base64_to_image` in src/app.py
  lines 102-106 relies on its exact error behaviour;
* image decoding with the engine-specific fast path and the PIL fallback
  (`decode_base64_to_image`, src/app.py lines 91-115), with the external
  `ddddocr.base64_to_image` and `PIL.Image.open` capabilities modelled as
  oracle parameters;
* the classification invocation fallback chain, the admission-slot
  semaphore region and the result post-processing of the `/recognize`
  handler (src/app.py lines 189-283);
* the raw content-length gate of src/server.py `do_POST` (lines 156-164);
* small interleaving models of the locked singleton construction
  (src/app.py `get_ocr`, lines 64-73) and the unlocked one
  (src/server.py `get_ocr`, lines 38-48).

External effectful collaborators (ddddocr, PIL, the OCR engine) are passed
in as oracles; everything the repository's own code does is translated
directly from the source.
-/

/-- Python `str.strip()` whitespace class, restricted to the ASCII
whitespace characters relevant to base64 payloads. -/
def isPySpace (c : Char) : Bool :=
  c = ' ' || c = '\t' || c = '\n' || c = '\r' || c = (Char.ofNat 11) || c = (Char.ofNat 12)

/-- Python `base64_str.strip()`: drop leading and trailing whitespace
(src/app.py line 84, src/server.py line 79). -/
def pyStrip (s : List Char) : List Char :=
  ((s.dropWhile isPySpace).reverse.dropWhile isPySpace).reverse

/-- Everything after the first comma of the list (helper for
`remove_base64_header`). -/
def dropThroughComma : List Char → List Char
  | [] => []
  | c :: rest => if c = ',' then rest else dropThroughComma rest

/-- `remove_base64_header` (src/app.py lines 76-81, src/server.py lines
50-66): if the string contains a comma, keep only what follows the first
comma; otherwise return it unchanged. -/
def removeBase64Header (s : List Char) : List Char :=
  if ',' ∈ s then dropThroughComma s else s

/-- The padding-correction step of `validate_base64` in src/app.py lines
86-88: `padding = len(pure) % 4; if padding: pure += '=' * (4 - padding)`. -/
def padB64App (s : List Char) : List Char :=
  if s.length % 4 ≠ 0 then s ++ List.replicate (4 - s.length % 4) '=' else s

/-- The padding-correction step of `validate_base64` in src/server.py lines
85-87: `missing = 4 - len(pure) % 4; if missing and missing != 4: pure += '=' * missing`. -/
def padB64Server (s : List Char) : List Char :=
  if (4 - s.length % 4) ≠ 0 ∧ (4 - s.length % 4) ≠ 4 then
    s ++ List.replicate (4 - s.length % 4) '='
  else s

/-- `validate_base64` of src/app.py lines 83-89: strip whitespace, strip the
data-URI header, then correct the padding. -/
def validateBase64App (s : List Char) : List Char :=
  padB64App (removeBase64Header (pyStrip s))

/-- Value of a character in the standard base64 alphabet, `none` for every
character outside it (CPython `binascii` table `table_a2b_base64`). -/
def b64CharVal (c : Char) : Option Nat :=
  if 65 ≤ c.toNat ∧ c.toNat ≤ 90 then some (c.toNat - 65)
  else if 97 ≤ c.toNat ∧ c.toNat ≤ 122 then some (c.toNat - 97 + 26)
  else if 48 ≤ c.toNat ∧ c.toNat ≤ 57 then some (c.toNat - 48 + 52)
  else if c = '+' then some 62
  else if c = '/' then some 63
  else none

/-- Characters that CPython's non-strict `binascii.a2b_base64` does not
discard: alphabet characters and the padding character. -/
def keptB64Char (c : Char) : Bool :=
  if c = '=' then true else (b64CharVal c).isSome

/-- Core loop of CPython's `binascii.a2b_base64` with `strict_mode=False`
(the mode used by `base64.b64decode(s)` with default `validate=False`):
characters outside the alphabet are discarded; a padding character at quad
position at least 2 that completes the quad terminates decoding; at the end
a quad position of 1, 2 or 3 is an error (`binascii.Error`). -/
def a2bGo : List Char → Nat → Nat → Nat → List Nat → Option (List Nat)
  | [], qp, _, _, out => if qp = 0 then some out.reverse else none
  | c :: rest, qp, lc, pads, out =>
    if c = '=' then
      if 2 ≤ qp then
        if 4 ≤ qp + (pads + 1) then some out.reverse
        else a2bGo rest qp lc (pads + 1) out
      else a2bGo rest qp lc pads out
    else
      match b64CharVal c with
      | none => a2bGo rest qp lc pads out
      | some v =>
        match qp with
        | 0 => a2bGo rest 1 v 0 out
        | 1 => a2bGo rest 2 (v % 16) 0 ((lc * 4 + v / 16) :: out)
        | 2 => a2bGo rest 3 (v % 4) 0 ((lc * 16 + v / 4) :: out)
        | _ => a2bGo rest 0 0 0 ((lc * 64 + v) :: out)

/-- Non-strict base64 decode: `some bytes` on success, `none` for a
`binascii.Error` (incorrect padding of the retained data characters). -/
def a2bBase64 (s : List Char) : Option (List Nat) :=
  a2bGo s 0 0 0 []

/-- Result of Python `base64.b64decode(s)` on a `str` argument. -/
inductive B64DecodeResult where
  | ok (bs : List Nat)
  | binasciiErr
  | nonAsciiErr
  deriving DecidableEq

/-- `base64.b64decode(pure_base64)` as called in src/app.py line 104: a
non-ASCII argument raises a plain `ValueError`; otherwise the non-strict
`binascii.a2b_base64` runs, raising `binascii.Error` on bad padding. -/
def pyB64Decode (s : List Char) : B64DecodeResult :=
  if s.all (fun c => c.toNat < 128) then
    match a2bBase64 s with
    | some bs => B64DecodeResult.ok bs
    | none => B64DecodeResult.binasciiErr
  else B64DecodeResult.nonAsciiErr

/-- Colour model of a PIL image: the fixed 3-channel RGB model or any
other mode. -/
inductive ColorMode where
  | rgb
  | other (tag : Nat)
  deriving DecidableEq

/-- An in-memory PIL image: its colour mode plus an abstract pixel-buffer
identifier. -/
structure PILImage where
  mode : ColorMode
  pix : Nat
  deriving DecidableEq

/-- `img.convert("RGB")` (src/app.py lines 98 and 113): same pixel buffer,
mode normalised to RGB. -/
def convertRGB (img : PILImage) : PILImage :=
  ⟨ColorMode.rgb, img.pix⟩

/-- Possible behaviours of the external `ddddocr.base64_to_image` fast
path as observed by src/app.py lines 94-100: it returns a PIL image, it
returns something that is not a PIL image, it raises, or the capability is
absent (`ddddocr is None` or the attribute missing). -/
inductive FastDecodeResult where
  | image (img : PILImage)
  | notImage
  | raised
  | unavailable
  deriving DecidableEq

/-- Possible behaviours of the external `PIL.Image.open` parse on a byte
buffer (src/app.py lines 111-115): a parsed image, an
`UnidentifiedImageError`, or some other exception. -/
inductive ParseResult where
  | ok (img : PILImage)
  | unidentified
  | raised
  deriving DecidableEq

/-- The typed decode failures of the spec's taxonomy, as they arise from
`decode_base64_to_image`: the three `ValueError` messages raised in
src/app.py lines 106, 109 and 115, plus the plain `ValueError` that
`base64.b64decode` raises on non-ASCII input. -/
inductive DecodeError where
  | invalidBase64
  | tooLarge
  | unsupported
  | nonAscii
  deriving DecidableEq

/-- Outcome of `decode_base64_to_image`: an image, a `ValueError` carrying
one of the typed decode failures, or a non-`ValueError` exception. -/
inductive DecodeResult where
  | ok (img : PILImage)
  | valueErr (e : DecodeError)
  | otherExn
  deriving DecidableEq

/-- `decode_base64_to_image` (src/app.py lines 91-115). The fast path
tries `ddddocr.base64_to_image` and returns `img.convert("RGB")` when it
yields a PIL image; any failure or non-image result falls through to the
fallback, which base64-decodes the payload, enforces the size bound
`len(img_bytes) > MAX_CONTENT_LENGTH`, parses with PIL and normalises to
RGB. -/
def decodeBase64ToImage (fast : List Char → FastDecodeResult)
    (parse : List Nat → ParseResult) (maxLen : Nat) (pureB64 : List Char) :
    DecodeResult :=
  match fast pureB64 with
  | FastDecodeResult.image img => DecodeResult.ok (convertRGB img)
  | _ =>
    match pyB64Decode pureB64 with
    | B64DecodeResult.binasciiErr => DecodeResult.valueErr DecodeError.invalidBase64
    | B64DecodeResult.nonAsciiErr => DecodeResult.valueErr DecodeError.nonAscii
    | B64DecodeResult.ok bs =>
      if maxLen < bs.length then DecodeResult.valueErr DecodeError.tooLarge
      else
        match parse bs with
        | ParseResult.ok img => DecodeResult.ok (convertRGB img)
        | ParseResult.unidentified => DecodeResult.valueErr DecodeError.unsupported
        | ParseResult.raised => DecodeResult.otherExn

/-- The decode step of src/server.py `do_POST` lines 188-196: the image is
obtained solely from `ddddocr.base64_to_image(pure_base64)` (line 192) and
used exactly as returned — there is no `isinstance` check, no PIL fallback,
no size check and no RGB conversion anywhere in `do_POST`. `some img` is
the image handed to the engine; `none` abstracts the remaining oracle
outcomes (an exception propagating to the 400/500 handlers, or a non-image
value, which carries no pixel data in this model). -/
def decodeServerImage (fast : List Char → FastDecodeResult)
    (pureB64 : List Char) : Option PILImage :=
  match fast pureB64 with
  | FastDecodeResult.image img => some img
  | _ => none

/-- The two calling conventions the pipeline tries on the engine's
`classification` capability: the image-object keyword form `img=...` and
the byte-stream keyword form `img_bytes=...` (src/app.py lines 237-245). -/
inductive CallShape where
  | objForm
  | byteForm
  deriving DecidableEq

/-- Outcome of one `ocr.classification(...)` invocation: a Python result
value (`None` or a string), a `TypeError` signalling an invocation-shape
mismatch, or any other exception. -/
inductive EngRes where
  | ok (v : Option (List Char))
  | typeErr
  | otherErr
  deriving DecidableEq

/-- The classification fallback chain of src/app.py lines 236-245,
instrumented with the list of invocations actually made. The engine oracle
takes the attempt index (invocations are effectful) and the call shape.
The code tries `classification(img=img)`, on `TypeError` re-encodes to PNG
bytes and tries `classification(img_bytes=img_bytes)`, and on a second
`TypeError` calls `classification(img=img)` once more. -/
def classifyRun (engine : Nat → CallShape → EngRes) : EngRes × List CallShape :=
  match engine 0 CallShape.objForm with
  | EngRes.typeErr =>
    match engine 1 CallShape.byteForm with
    | EngRes.typeErr =>
      (engine 2 CallShape.objForm,
        [CallShape.objForm, CallShape.byteForm, CallShape.objForm])
    | r => (r, [CallShape.objForm, CallShape.byteForm])
  | r => (r, [CallShape.objForm])

/-- ASCII letters and digits, the character class `[A-Za-z0-9]` of the
post-processing regular expression (src/app.py line 252). -/
def isAsciiAlnum (c : Char) : Bool :=
  (65 ≤ c.toNat && c.toNat ≤ 90) || (97 ≤ c.toNat && c.toNat ≤ 122) ||
    (48 ≤ c.toNat && c.toNat ≤ 57)

/-- `''.join(re.findall(r'[A-Za-z0-9]', s))`: keep exactly the ASCII
alphanumeric characters, in order. -/
def filterAlnum (s : List Char) : List Char :=
  s.filter isAsciiAlnum

/-- Python `str(result or '')` for a result that is `None` or a string:
`None` and the empty string both collapse to the empty string. -/
def pyStrOr : Option (List Char) → List Char
  | none => []
  | some s => s

/-- Admission-slot events: entering and leaving the
`with _ocr_semaphore:` region of src/app.py line 233. -/
inductive SemEvent where
  | acquire
  | release
  deriving DecidableEq

/-- State of the bounded admission-slot pool
(`threading.BoundedSemaphore(OCR_CONCURRENCY)`, src/app.py line 62):
free slots and in-flight engine invocations. -/
structure SemPool where
  free : Nat
  inflight : Nat
  deriving DecidableEq

/-- One semaphore transition: `acquire` blocks (is not enabled) when no
slot is free; `release` of a `BoundedSemaphore` is invalid when nothing is
in flight. -/
def semStep (p : SemPool) (e : SemEvent) : Option SemPool :=
  match e with
  | SemEvent.acquire =>
    if p.free = 0 then none else some ⟨p.free - 1, p.inflight + 1⟩
  | SemEvent.release =>
    if p.inflight = 0 then none else some ⟨p.free + 1, p.inflight - 1⟩

/-- Run a trace of semaphore events from a pool state; `none` when some
event was not enabled. -/
def semRun (p : SemPool) : List SemEvent → Option SemPool
  | [] => some p
  | e :: tl =>
    match semStep p e with
    | none => none
    | some p2 => semRun p2 tl

/-- Number of occurrences of an event in a trace. -/
def countEv (e : SemEvent) : List SemEvent → Nat
  | [] => 0
  | e2 :: tl => (if e2 = e then 1 else 0) + countEv e tl

/-- The distinct failure and success messages produced by the `/recognize`
handler of src/app.py (lines 205, 209, 213, 220, 223, 230, 248, 257). -/
inductive MsgTag where
  | notJson
  | missingField
  | tooShort
  | decodeValue (e : DecodeError)
  | decodeInternal
  | ocrInitFail
  | recogFail
  | recognized
  deriving DecidableEq

/-- The parts of an incoming POST request that the handler inspects:
whether it is JSON, whether the `base64` field is present (and the body
truthy), and the field's string value. -/
structure RecogRequest where
  isJson : Bool
  hasB64Field : Bool
  b64 : List Char
  deriving DecidableEq

/-- The JSON response of the `/recognize` handler: success flag, numeric
code, message tag, and on success the filtered captcha text and its
length. -/
structure RecogResponse where
  success : Bool
  code : Nat
  msg : MsgTag
  captcha : Option (List Char)
  lengthField : Option Nat
  deriving DecidableEq

/-- A full run of the handler: the response plus the admission-slot events
it performed and the classification invocations it made. -/
structure RecogRun where
  resp : RecogResponse
  semEvents : List SemEvent
  attempts : List CallShape
  deriving DecidableEq

/-- The `/recognize` POST handler of src/app.py lines 202-271. Validation
guards, then `validate_base64` plus `decode_base64_to_image` (a
`ValueError` maps to code 400 with its message, any other exception to
500), then `get_ocr` (failure maps to 500), then the classification
fallback chain inside the `with _ocr_semaphore:` region (the region is
entered and left exactly once whether the chain returns or raises; a
raising chain maps to 500), and finally the alphanumeric post-processing
of the successful result. -/
def recognizeApp (fast : List Char → FastDecodeResult)
    (parse : List Nat → ParseResult) (maxLen : Nat) (ocrOk : Bool)
    (engine : Nat → CallShape → EngRes) (req : RecogRequest) : RecogRun :=
  if req.isJson = false then
    ⟨⟨false, 400, MsgTag.notJson, none, none⟩, [], []⟩
  else if req.hasB64Field = false then
    ⟨⟨false, 400, MsgTag.missingField, none, none⟩, [], []⟩
  else if req.b64.length < 10 then
    ⟨⟨false, 400, MsgTag.tooShort, none, none⟩, [], []⟩
  else
    match decodeBase64ToImage fast parse maxLen (validateBase64App req.b64) with
    | DecodeResult.valueErr e =>
      ⟨⟨false, 400, MsgTag.decodeValue e, none, none⟩, [], []⟩
    | DecodeResult.otherExn =>
      ⟨⟨false, 500, MsgTag.decodeInternal, none, none⟩, [], []⟩
    | DecodeResult.ok _ =>
      if ocrOk = false then
        ⟨⟨false, 500, MsgTag.ocrInitFail, none, none⟩, [], []⟩
      else
        match classifyRun engine with
        | (EngRes.ok v, shapes) =>
          ⟨⟨true, 200, MsgTag.recognized, some (filterAlnum (pyStrOr v)),
              some (filterAlnum (pyStrOr v)).length⟩,
            [SemEvent.acquire, SemEvent.release], shapes⟩
        | (EngRes.typeErr, shapes) =>
          ⟨⟨false, 500, MsgTag.recogFail, none, none⟩,
            [SemEvent.acquire, SemEvent.release], shapes⟩
        | (EngRes.otherErr, shapes) =>
          ⟨⟨false, 500, MsgTag.recogFail, none, none⟩,
            [SemEvent.acquire, SemEvent.release], shapes⟩

/-- The raw content-length gate of src/server.py `do_POST` lines 157-164:
an empty body is a 400, a body larger than `MAX_CONTENT_LENGTH` is a 413,
otherwise the request proceeds (`none`). -/
def serverContentLengthGate (contentLength maxLen : Nat) : Option Nat :=
  if contentLength = 0 then some 400
  else if maxLen < contentLength then some 413
  else none

/-- Modelled from the spec (amended by `C4_counterexample`): the numeric
code the pipeline attaches to each message class — 400 for validation and
decode `ValueError`s (including the oversized decoded payload), 500 for
construction, engine and internal errors, 200 on success. -/
def specStatusCode : MsgTag → Nat
  | MsgTag.notJson => 400
  | MsgTag.missingField => 400
  | MsgTag.tooShort => 400
  | MsgTag.decodeValue _ => 400
  | MsgTag.decodeInternal => 500
  | MsgTag.ocrInitFail => 500
  | MsgTag.recogFail => 500
  | MsgTag.recognized => 200

/-- Pointwise update of a thread map. -/
def updateAt {α : Type} (f : Nat → α) (i : Nat) (v : α) : Nat → α :=
  fun j => if j = i then v else f j

/-- A thread executing src/server.py's unlocked `get_ocr` (lines 38-48):
program counter 0 = about to evaluate `_ocr_instance is None`, 1 = about
to construct if the check saw `None`, 2 = done. -/
structure SThread where
  pc : Nat
  sawNone : Bool
  deriving DecidableEq

/-- Shared state for the unlocked singleton: the global `_ocr_instance`
(identified by its construction number), the number of constructions
performed, and the threads. -/
structure SState where
  inst : Option Nat
  cons : Nat
  threads : Nat → SThread

/-- One step of thread `i` in the unlocked `get_ocr`: first read the
global check, then construct and assign when the check saw `None`. The
check and the construction are separate steps because nothing serialises
them. -/
def sstep (s : SState) (i : Nat) : SState :=
  if (s.threads i).pc = 0 then
    ⟨s.inst, s.cons, updateAt s.threads i ⟨1, s.inst.isNone⟩⟩
  else if (s.threads i).pc = 1 then
    if (s.threads i).sawNone then
      ⟨some s.cons, s.cons + 1, updateAt s.threads i ⟨2, (s.threads i).sawNone⟩⟩
    else
      ⟨s.inst, s.cons, updateAt s.threads i ⟨2, (s.threads i).sawNone⟩⟩
  else s

/-- Initial unlocked-singleton state: no instance, no constructions, every
thread at its first step. -/
def sinit : SState :=
  ⟨none, 0, fun _ => ⟨0, false⟩⟩

/-- Run a schedule (list of thread ids) of the unlocked `get_ocr`. -/
def srun (sched : List Nat) : SState :=
  sched.foldl sstep sinit

/-- A thread executing src/app.py's locked `get_ocr` (lines 64-73):
program counter 0 = about to acquire `_ocr_lock`, 1 = about to evaluate
`_ocr_instance is None` inside the lock, 2 = about to construct if the
check saw `None`, 3 = about to release the lock (recording the handle the
call returns), 4 = done. -/
structure LThread where
  pc : Nat
  sawNone : Bool
  result : Option Nat
  deriving DecidableEq

/-- Shared state for the locked singleton: the lock owner, the global
`_ocr_instance`, the construction count and the threads. -/
structure LState where
  lock : Option Nat
  inst : Option Nat
  cons : Nat
  threads : Nat → LThread

/-- One step of thread `i` in the locked `get_ocr`. Acquiring blocks while
another thread owns `_ocr_lock`; the check, the construction and the
release all happen while holding the lock, exactly as the `with _ocr_lock:`
block does; the handle returned is read at release time. -/
def lstep (s : LState) (i : Nat) : LState :=
  if (s.threads i).pc = 0 then
    match s.lock with
    | none =>
      ⟨some i, s.inst, s.cons,
        updateAt s.threads i ⟨1, (s.threads i).sawNone, (s.threads i).result⟩⟩
    | some _ => s
  else if (s.threads i).pc = 1 then
    ⟨s.lock, s.inst, s.cons,
      updateAt s.threads i ⟨2, s.inst.isNone, (s.threads i).result⟩⟩
  else if (s.threads i).pc = 2 then
    if (s.threads i).sawNone then
      ⟨s.lock, some s.cons, s.cons + 1,
        updateAt s.threads i ⟨3, (s.threads i).sawNone, (s.threads i).result⟩⟩
    else
      ⟨s.lock, s.inst, s.cons,
        updateAt s.threads i ⟨3, (s.threads i).sawNone, (s.threads i).result⟩⟩
  else if (s.threads i).pc = 3 then
    ⟨none, s.inst, s.cons,
      updateAt s.threads i ⟨4, (s.threads i).sawNone, s.inst⟩⟩
  else s

/-- Initial locked-singleton state. -/
def linit : LState :=
  ⟨none, none, 0, fun _ => ⟨0, false, none⟩⟩

/-- Run a schedule of the locked `get_ocr`. -/
def lrun (sched : List Nat) : LState :=
  sched.foldl lstep linit

/-- Inductive invariant of the locked singleton: at most one construction;
the instance exists exactly when one construction happened; any thread
past the acquire owns the lock; a thread that saw `None` and has not yet
constructed still sees no instance; a thread that saw an instance, or is
about to release, has one; finished threads all returned the (unique)
instance. -/
def LInv (s : LState) : Prop :=
  s.cons ≤ 1 ∧
  (s.inst.isSome = true ↔ s.cons = 1) ∧
  (∀ i, ((s.threads i).pc = 1 ∨ (s.threads i).pc = 2 ∨ (s.threads i).pc = 3) →
    s.lock = some i) ∧
  (∀ i, (s.threads i).pc = 2 → (s.threads i).sawNone = true → s.inst = none) ∧
  (∀ i, (s.threads i).pc = 2 → (s.threads i).sawNone = false →
    s.inst.isSome = true) ∧
  (∀ i, (s.threads i).pc = 3 → s.inst.isSome = true) ∧
  (∀ i, (s.threads i).pc = 4 →
    (s.threads i).result = s.inst ∧ s.inst.isSome = true)

theorem updateAt_same {α : Type} (f : Nat → α) (i : Nat) (v : α) :
    updateAt f i v i = v := by
  simp [updateAt]

theorem updateAt_ne {α : Type} (f : Nat → α) (i j : Nat) (v : α) (h : j ≠ i) :
    updateAt f i v j = f j := by
  simp [updateAt, h]

theorem a2bGo_filter :
    ∀ (s : List Char) (qp lc pads : Nat) (out : List Nat),
      a2bGo s qp lc pads out = a2bGo (s.filter keptB64Char) qp lc pads out := by
  intro s
  induction s with
  | nil => intro qp lc pads out; rfl
  | cons c rest ih =>
    intro qp lc pads out
    by_cases hc : c = '='
    · subst hc
      have hk : keptB64Char '=' = true := by decide
      rw [List.filter_cons, hk]
      simp only [if_true]
      by_cases h2 : 2 ≤ qp
      · by_cases h4 : 4 ≤ qp + (pads + 1)
        · simp [a2bGo, h2, h4]
        · simp only [a2bGo, h2, h4, if_true, if_false, eq_self_iff_true]
          exact ih _ _ _ _
      · simp only [a2bGo, h2, if_false, eq_self_iff_true, if_true]
        exact ih _ _ _ _
    · cases hv : b64CharVal c with
      | none =>
        have hk : keptB64Char c = false := by simp [keptB64Char, hc, hv]
        rw [List.filter_cons, hk]
        rw [if_neg (by decide : ¬ (false = true))]
        simp only [a2bGo, if_neg hc, hv]
        exact ih _ _ _ _
      | some v =>
        have hk : keptB64Char c = true := by simp [keptB64Char, hc, hv]
        rw [List.filter_cons, hk]
        simp only [if_true]
        simp only [a2bGo, if_neg hc, hv]
        rcases qp with _ | _ | _ | q
        · exact ih _ _ _ _
        · exact ih _ _ _ _
        · exact ih _ _ _ _
        · exact ih _ _ _ _

theorem a2bGo_valid_ok :
    ∀ (s : List Char) (qp lc pads : Nat) (out : List Nat),
      (∀ c ∈ s, (b64CharVal c).isSome = true) → qp < 4 →
      (qp + s.length) % 4 = 0 → (a2bGo s qp lc pads out).isSome = true := by
  intro s
  induction s with
  | nil =>
    intro qp lc pads out _ hlt hmod
    have hq : qp = 0 := by simp at hmod; omega
    subst hq
    simp [a2bGo]
  | cons c rest ih =>
    intro qp lc pads out hall hlt hmod
    have hv0 : (b64CharVal c).isSome = true := hall c (List.mem_cons_self c rest)
    obtain ⟨v, hv⟩ := Option.isSome_iff_exists.mp hv0
    have hc : c ≠ '=' := by
      intro hce
      rw [hce, show b64CharVal '=' = none from by decide] at hv
      cases hv
    have hrest : ∀ c2 ∈ rest, (b64CharVal c2).isSome = true :=
      fun c2 h2 => hall c2 (List.mem_cons_of_mem c h2)
    have hmod2 : (qp + (rest.length + 1)) % 4 = 0 := by
      simpa [List.length_cons] using hmod
    simp only [a2bGo, if_neg hc, hv]
    rcases qp with _ | _ | _ | q
    · exact ih 1 v 0 out hrest (by omega) (by omega)
    · exact ih 2 (v % 16) 0 _ hrest (by omega) (by omega)
    · exact ih 3 (v % 4) 0 _ hrest (by omega) (by omega)
    · exact ih 0 0 0 _ hrest (by omega) (by omega)

/-- C5 (amended): the fallback base64 decode does not fail on characters
outside the base64 alphabet — CPython's non-strict `a2b_base64` discards
them, so decoding a payload is identical to decoding the payload with all
non-alphabet, non-padding characters removed; moreover any payload made of
alphabet characters only whose length is a multiple of 4 decodes without
error, so such a payload with `@@@@` inserted reaches the image parse
instead of failing with `InvalidBase64`. -/
theorem C5_discard_nonalphabet :
    (∀ s : List Char, a2bBase64 s = a2bBase64 (s.filter keptB64Char)) ∧
    (∀ s : List Char, (∀ c ∈ s, (b64CharVal c).isSome = true) →
      s.length % 4 = 0 → (a2bBase64 s).isSome = true) := by
  constructor
  · intro s
    exact a2bGo_filter s 0 0 0 []
  · intro s hall hmod
    exact a2bGo_valid_ok s 0 0 0 [] hall (by omega) (by omega)

/-- C5 witness: decoding is invariant under discarding the `@` characters,
and the retained payload `abcd` decodes successfully. -/
theorem C5_witness :
    a2bBase64 ("ab@@cd".toList) = a2bBase64 (List.filter keptB64Char ("ab@@cd".toList)) ∧
    List.filter keptB64Char ("ab@@cd".toList) = ("abcd".toList) ∧
    (a2bBase64 ("abcd".toList)).isSome = true :=
  ⟨C5_discard_nonalphabet.1 _, by decide,
    C5_discard_nonalphabet.2 ("abcd".toList) (by decide) (by decide)⟩

/-- C5 counterexample: the request whose payload contains `@@@@` amid
otherwise valid base64 does not yield `InvalidBase64`: the fallback decode
succeeds (the `@` characters are discarded) and the request fails with the
`UnsupportedFormat` decode error from the image parse instead. -/
theorem C5_counterexample :
    (recognizeApp (fun _ => FastDecodeResult.raised) (fun _ => ParseResult.unidentified)
        10485760 true (fun _ _ => EngRes.ok (some ('a' :: [])))
        ⟨true, true, ("abcdefgh@@@@".toList)⟩).resp =
      ⟨false, 400, MsgTag.decodeValue DecodeError.unsupported, none, none⟩ ∧
    pyB64Decode (validateBase64App ("abcdefgh@@@@".toList)) =
      B64DecodeResult.ok [105, 183, 29, 121, 248, 33] ∧
    MsgTag.decodeValue DecodeError.unsupported ≠
      MsgTag.decodeValue DecodeError.invalidBase64 := by
  decide

/-- C7: the padding correction of `validate_base64` is the same in both
entry points, appends exactly `(4 - len % 4) % 4` padding characters, always
yields a length that is a multiple of 4, and leaves a payload whose length
is already a multiple of 4 unchanged. -/
theorem C7_padding_correction :
    ∀ s : List Char,
      padB64Server s = padB64App s ∧
      padB64App s = s ++ List.replicate ((4 - s.length % 4) % 4) '=' ∧
      (padB64App s).length % 4 = 0 ∧
      (s.length % 4 = 0 → padB64App s = s) := by
  intro s
  rcases show s.length % 4 = 0 ∨ s.length % 4 = 1 ∨ s.length % 4 = 2 ∨
      s.length % 4 = 3 from by omega with h | h | h | h <;>
    refine ⟨?_, ?_, ?_, ?_⟩ <;>
      simp [padB64App, padB64Server, h, List.length_append] <;> omega

/-- C7 witness: a payload of length 5 receives three padding characters;
one of length 4 is returned unchanged. -/
theorem C7_witness :
    padB64App ("abcde".toList) = ("abcde".toList) ++ List.replicate 3 '=' ∧
    ("abcd".toList).length % 4 = 0 ∧
    padB64App ("abcd".toList) = ("abcd".toList) :=
  ⟨by simpa using (C7_padding_correction ("abcde".toList)).2.1, by decide,
    (C7_padding_correction ("abcd".toList)).2.2.2 (by decide)⟩

/-- C9 counterexample: in src/server.py's decode step the image handed to
the engine is the `ddddocr.base64_to_image` result as-is — an image
arriving in a non-RGB mode keeps that mode — while src/app.py's decoder
converts the same fast-path image to RGB. -/
theorem C9_counterexample :
    decodeServerImage (fun _ => FastDecodeResult.image ⟨ColorMode.other 5, 3⟩)
        ("QQQQ".toList) = some ⟨ColorMode.other 5, 3⟩ ∧
    (⟨ColorMode.other 5, 3⟩ : PILImage).mode ≠ ColorMode.rgb ∧
    decodeBase64ToImage (fun _ => FastDecodeResult.image ⟨ColorMode.other 5, 3⟩)
        (fun _ => ParseResult.unidentified) 99 ("QQQQ".toList) =
      DecodeResult.ok ⟨ColorMode.rgb, 3⟩ := by
  decide

/-- C9 (amended): every image that app.py's `decode_base64_to_image`
returns — on the engine fast path as well as on the base64-plus-parser
fallback path, for every behaviour of the two external capabilities — has
been normalised to the 3-channel RGB colour model; server.py's decode
step, by contrast, hands the engine exactly the image the fast path
returned, with no RGB conversion. -/
theorem C9_rgb_normalization :
    (∀ (fast : List Char → FastDecodeResult) (parse : List Nat → ParseResult)
      (maxLen : Nat) (pureB64 : List Char) (img : PILImage),
      decodeBase64ToImage fast parse maxLen pureB64 = DecodeResult.ok img →
      img.mode = ColorMode.rgb) ∧
    (∀ (fast : List Char → FastDecodeResult) (pureB64 : List Char) (img : PILImage),
      decodeServerImage fast pureB64 = some img →
      fast pureB64 = FastDecodeResult.image img) := by
  constructor
  · intro fast parse maxLen pureB64 img h
    unfold decodeBase64ToImage at h
    repeat' split at h
    all_goals (cases h <;> rfl)
  · intro fast pureB64 img h
    unfold decodeServerImage at h
    cases hf : fast pureB64 with
    | image i =>
      rw [hf] at h
      simp at h
      subst h
      rfl
    | notImage => rw [hf] at h; simp at h
    | raised => rw [hf] at h; simp at h
    | unavailable => rw [hf] at h; simp at h

/-- C9 witness: a fast-path image arriving in a non-RGB mode is returned
converted to RGB by app.py's decoder, and returned by server.py's decode
step exactly as the fast path produced it. -/
theorem C9_witness :
    decodeBase64ToImage (fun _ => FastDecodeResult.image ⟨ColorMode.other 3, 9⟩)
        (fun _ => ParseResult.raised) 99 ("QQQQ".toList) =
      DecodeResult.ok ⟨ColorMode.rgb, 9⟩ ∧
    (⟨ColorMode.rgb, 9⟩ : PILImage).mode = ColorMode.rgb ∧
    FastDecodeResult.image (⟨ColorMode.other 3, 9⟩ : PILImage) =
      FastDecodeResult.image ⟨ColorMode.other 3, 9⟩ :=
  ⟨by decide,
    C9_rgb_normalization.1 (fun _ => FastDecodeResult.image ⟨ColorMode.other 3, 9⟩)
      (fun _ => ParseResult.raised) 99 ("QQQQ".toList) ⟨ColorMode.rgb, 9⟩ (by decide),
    C9_rgb_normalization.2 (fun _ => FastDecodeResult.image ⟨ColorMode.other 3, 9⟩)
      ("QQQQ".toList) ⟨ColorMode.other 3, 9⟩ (by decide)⟩

/-- C3 counterexample: with the engine fast path available and succeeding
(which is what `ddddocr.base64_to_image` does on any well-formed image of
any size — it performs no size check), the decoder returns an image whose
pre-decoded payload is 6 bytes although the configured maximum is 4, and
no `PayloadTooLarge` failure occurs. -/
theorem C3_counterexample :
    decodeBase64ToImage (fun _ => FastDecodeResult.image ⟨ColorMode.other 0, 7⟩)
        (fun _ => ParseResult.unidentified) 4 ("AAAAAAAA".toList) =
      DecodeResult.ok ⟨ColorMode.rgb, 7⟩ ∧
    pyB64Decode ("AAAAAAAA".toList) = B64DecodeResult.ok [0, 0, 0, 0, 0, 0] ∧
    4 < [0, 0, 0, 0, 0, 0].length := by
  decide

/-- C3 (amended): on the fallback path — whenever the engine fast path
does not itself return an image — a decoded byte buffer exceeding the
configured maximum always fails with `PayloadTooLarge`, and the image
parse is never invoked (the outcome is the same for every parse oracle).
The engine fast path performs no size check, so only fallback-decoded
images carry the size guarantee. -/
theorem C3_fallback_size_guard :
    ∀ (fast : List Char → FastDecodeResult) (parse parse2 : List Nat → ParseResult)
      (maxLen : Nat) (pureB64 : List Char) (bs : List Nat),
      (∀ img, fast pureB64 ≠ FastDecodeResult.image img) →
      pyB64Decode pureB64 = B64DecodeResult.ok bs →
      maxLen < bs.length →
      decodeBase64ToImage fast parse maxLen pureB64 =
        DecodeResult.valueErr DecodeError.tooLarge ∧
      decodeBase64ToImage fast parse2 maxLen pureB64 =
        decodeBase64ToImage fast parse maxLen pureB64 := by
  intro fast parse parse2 maxLen pureB64 bs hfast hb hlen
  have hdec : ∀ p : List Nat → ParseResult,
      decodeBase64ToImage fast p maxLen pureB64 =
        DecodeResult.valueErr DecodeError.tooLarge := by
    intro p
    unfold decodeBase64ToImage
    rcases hf : fast pureB64 with img | _ | _ | _
    · exact absurd hf (hfast img)
    all_goals (rw [hb]; simp [hlen])
  exact ⟨hdec parse, by rw [hdec parse, hdec parse2]⟩

/-- C3 witness: a fall-through fast path plus a 6-byte decode against a
configured maximum of 4 yields `PayloadTooLarge`. -/
theorem C3_witness :
    pyB64Decode ("AAAAAAAA".toList) = B64DecodeResult.ok [0, 0, 0, 0, 0, 0] ∧
    decodeBase64ToImage (fun _ => FastDecodeResult.raised)
        (fun _ => ParseResult.unidentified) 4 ("AAAAAAAA".toList) =
      DecodeResult.valueErr DecodeError.tooLarge :=
  ⟨by decide,
    (C3_fallback_size_guard (fun _ => FastDecodeResult.raised)
      (fun _ => ParseResult.unidentified) (fun _ => ParseResult.unidentified)
      4 ("AAAAAAAA".toList) [0, 0, 0, 0, 0, 0]
      (fun img h => FastDecodeResult.noConfusion h) (by decide) (by decide)).1⟩

/-- C4 counterexample: a payload whose decoded bytes exceed the configured
maximum produces the oversized-payload failure with numeric code 400, not
413. -/
theorem C4_counterexample :
    (recognizeApp (fun _ => FastDecodeResult.raised) (fun _ => ParseResult.unidentified)
        4 true (fun _ _ => EngRes.ok none)
        ⟨true, true, ("AAAAAAAAAAAA".toList)⟩).resp.msg =
      MsgTag.decodeValue DecodeError.tooLarge ∧
    (recognizeApp (fun _ => FastDecodeResult.raised) (fun _ => ParseResult.unidentified)
        4 true (fun _ _ => EngRes.ok none)
        ⟨true, true, ("AAAAAAAAAAAA".toList)⟩).resp.code = 400 ∧
    (400 : Nat) ≠ 413 := by
  decide

/-- C4 (amended): each failure class carries a fixed numeric code — 400
for validation errors and for every decode `ValueError` including the
oversized decoded payload, 500 for construction, engine and internal
errors, 200 on success — and 413 is produced only by the raw
content-length gate of the `server.py` HTTP boundary, exactly when the
request body exceeds the configured maximum. -/
theorem C4_status_code_mapping :
    (∀ fast parse maxLen ocrOk engine req,
      (recognizeApp fast parse maxLen ocrOk engine req).resp.code =
        specStatusCode (recognizeApp fast parse maxLen ocrOk engine req).resp.msg ∧
      ((recognizeApp fast parse maxLen ocrOk engine req).resp.success = true →
        (recognizeApp fast parse maxLen ocrOk engine req).resp.code = 200)) ∧
    (∀ contentLength maxLen,
      serverContentLengthGate contentLength maxLen = some 413 ↔
        maxLen < contentLength) := by
  constructor
  · intro fast parse maxLen ocrOk engine req
    by_cases h1 : req.isJson = false
    · simp [recognizeApp, h1, specStatusCode]
    by_cases h2 : req.hasB64Field = false
    · simp [recognizeApp, h1, h2, specStatusCode]
    by_cases h3 : req.b64.length < 10
    · simp [recognizeApp, h1, h2, h3, specStatusCode]
    cases hdec : decodeBase64ToImage fast parse maxLen (validateBase64App req.b64) with
    | valueErr e => simp [recognizeApp, h1, h2, h3, hdec, specStatusCode]
    | otherExn => simp [recognizeApp, h1, h2, h3, hdec, specStatusCode]
    | ok img =>
      by_cases h4 : ocrOk = false
      · simp [recognizeApp, h1, h2, h3, hdec, h4, specStatusCode]
      rcases hcr : classifyRun engine with ⟨r, shapes⟩
      cases r <;> simp [recognizeApp, h1, h2, h3, hdec, h4, hcr, specStatusCode]
  · intro contentLength maxLen
    unfold serverContentLengthGate
    split_ifs with h1 h2
    · constructor
      · intro h; exact absurd h (by decide)
      · intro h; exact absurd h (by omega)
    · constructor
      · intro _; exact h2
      · intro _; rfl
    · constructor
      · intro h; exact absurd h (by simp)
      · intro h; exact absurd h h2

/-- C4 witness: a successful run carries code 200, and a request body of
11000000 bytes against the default 10485760-byte limit is rejected with
413 at the boundary gate. -/
theorem C4_witness :
    (recognizeApp (fun _ => FastDecodeResult.raised)
        (fun _ => ParseResult.ok ⟨ColorMode.other 1, 2⟩) 99 true
        (fun _ _ => EngRes.ok (some ('a' :: [])))
        ⟨true, true, ("QQQQQQQQQQQQ".toList)⟩).resp.code = 200 ∧
    serverContentLengthGate 11000000 10485760 = some 413 :=
  ⟨(C4_status_code_mapping.1 (fun _ => FastDecodeResult.raised)
      (fun _ => ParseResult.ok ⟨ColorMode.other 1, 2⟩) 99 true
      (fun _ _ => EngRes.ok (some ('a' :: [])))
      ⟨true, true, ("QQQQQQQQQQQQ".toList)⟩).2 (by decide),
    (C4_status_code_mapping.2 11000000 10485760).mpr (by decide)⟩

/-- C6 counterexample: when both keyword forms raise `TypeError`, the code
makes a third invocation (the image-object form again) — the chain is not
"object form then byte-stream form" with no further attempt; and an engine
whose third invocation succeeds makes the whole call succeed, which the
two-attempt chain of the claim could not. -/
theorem C6_counterexample :
    (classifyRun (fun _ _ => EngRes.typeErr)).2 =
      [CallShape.objForm, CallShape.byteForm, CallShape.objForm] ∧
    (classifyRun (fun _ _ => EngRes.typeErr)).2 ≠
      [CallShape.objForm, CallShape.byteForm] ∧
    (classifyRun (fun i _ => if i = 2 then EngRes.ok (some ('x' :: []))
        else EngRes.typeErr)).1 = EngRes.ok (some ('x' :: [])) := by
  decide

theorem recognizeApp_engine_failure :
    ∀ fast parse maxLen ocrOk engine req,
      ((classifyRun engine).1 = EngRes.typeErr ∨
        (classifyRun engine).1 = EngRes.otherErr) →
      (recognizeApp fast parse maxLen ocrOk engine req).attempts ≠ [] →
      (recognizeApp fast parse maxLen ocrOk engine req).resp.code = 500 ∧
      (recognizeApp fast parse maxLen ocrOk engine req).resp.success = false := by
  intro fast parse maxLen ocrOk engine req hfail hne
  by_cases h1 : req.isJson = false
  · simp [recognizeApp, h1] at hne
  by_cases h2 : req.hasB64Field = false
  · simp [recognizeApp, h1, h2] at hne
  by_cases h3 : req.b64.length < 10
  · simp [recognizeApp, h1, h2, h3] at hne
  cases hdec : decodeBase64ToImage fast parse maxLen (validateBase64App req.b64) with
  | valueErr e => simp [recognizeApp, h1, h2, h3, hdec] at hne
  | otherExn => simp [recognizeApp, h1, h2, h3, hdec] at hne
  | ok img =>
    by_cases h4 : ocrOk = false
    · simp [recognizeApp, h1, h2, h3, hdec, h4] at hne
    rcases hcr : classifyRun engine with ⟨r, shapes⟩
    rw [hcr] at hfail
    cases r with
    | ok v => simp at hfail
    | typeErr => simp [recognizeApp, h1, h2, h3, hdec, h4, hcr]
    | otherErr => simp [recognizeApp, h1, h2, h3, hdec, h4, hcr]

/-- C6 (amended): the fallback chain tries the image-object form first,
falls back to the byte-stream form on a `TypeError`, and on a second
`TypeError` makes one further attempt with the image-object form again;
if the chain ends in an exception the pipeline fails with the 500-class
engine error. -/
theorem C6_fallback_chain :
    ∀ engine : Nat → CallShape → EngRes,
      (engine 0 CallShape.objForm ≠ EngRes.typeErr →
        classifyRun engine = (engine 0 CallShape.objForm, [CallShape.objForm])) ∧
      (engine 0 CallShape.objForm = EngRes.typeErr →
        engine 1 CallShape.byteForm ≠ EngRes.typeErr →
        classifyRun engine = (engine 1 CallShape.byteForm,
          [CallShape.objForm, CallShape.byteForm])) ∧
      (engine 0 CallShape.objForm = EngRes.typeErr →
        engine 1 CallShape.byteForm = EngRes.typeErr →
        classifyRun engine = (engine 2 CallShape.objForm,
          [CallShape.objForm, CallShape.byteForm, CallShape.objForm])) ∧
      (∀ fast parse maxLen ocrOk req,
        ((classifyRun engine).1 = EngRes.typeErr ∨
          (classifyRun engine).1 = EngRes.otherErr) →
        (recognizeApp fast parse maxLen ocrOk engine req).attempts ≠ [] →
        (recognizeApp fast parse maxLen ocrOk engine req).resp.code = 500 ∧
        (recognizeApp fast parse maxLen ocrOk engine req).resp.success = false) := by
  intro engine
  refine ⟨?_, ?_, ?_, ?_⟩
  · intro h0
    unfold classifyRun
    cases h : engine 0 CallShape.objForm <;> simp_all
  · intro h0 h1
    unfold classifyRun
    rw [h0]
    cases h : engine 1 CallShape.byteForm <;> simp_all
  · intro h0 h1
    unfold classifyRun
    rw [h0, h1]
  · intro fast parse maxLen ocrOk req hfail hne
    exact recognizeApp_engine_failure fast parse maxLen ocrOk engine req hfail hne

/-- C6 witness: an engine raising `TypeError` on the first two attempts
and another error on the third produces exactly the three-attempt trace,
ending in the engine failure. -/
theorem C6_witness :
    classifyRun (fun i _ => if i = 2 then EngRes.otherErr else EngRes.typeErr) =
      (EngRes.otherErr,
        [CallShape.objForm, CallShape.byteForm, CallShape.objForm]) := by
  have h := (C6_fallback_chain
      (fun i _ => if i = 2 then EngRes.otherErr else EngRes.typeErr)).2.2.1
    (by decide) (by decide)
  simpa using h

/-- C1 counterexample: in the unlocked `get_ocr` of src/server.py two
concurrent first-callers can interleave the `is None` check and the
construction: under the schedule 0,1,0,1 both threads construct, so two
constructions occur in one process lifetime. -/
theorem C1_counterexample :
    (srun [0, 1, 0, 1]).cons = 2 ∧ ¬ (srun [0, 1, 0, 1]).cons ≤ 1 := by
  decide

theorem recognizeApp_semEvents :
    ∀ fast parse maxLen ocrOk engine req,
      (recognizeApp fast parse maxLen ocrOk engine req).semEvents = [] ∨
      (recognizeApp fast parse maxLen ocrOk engine req).semEvents =
        [SemEvent.acquire, SemEvent.release] := by
  intro fast parse maxLen ocrOk engine req
  by_cases h1 : req.isJson = false
  · left; simp [recognizeApp, h1]
  by_cases h2 : req.hasB64Field = false
  · left; simp [recognizeApp, h1, h2]
  by_cases h3 : req.b64.length < 10
  · left; simp [recognizeApp, h1, h2, h3]
  cases hdec : decodeBase64ToImage fast parse maxLen (validateBase64App req.b64) with
  | valueErr e => left; simp [recognizeApp, h1, h2, h3, hdec]
  | otherExn => left; simp [recognizeApp, h1, h2, h3, hdec]
  | ok img =>
    by_cases h4 : ocrOk = false
    · left; simp [recognizeApp, h1, h2, h3, hdec, h4]
    rcases hcr : classifyRun engine with ⟨r, shapes⟩
    cases r <;> (right; simp [recognizeApp, h1, h2, h3, hdec, h4, hcr])

theorem semRun_counts :
    ∀ (tr : List SemEvent) (p q : SemPool), semRun p tr = some q →
      q.free + q.inflight = p.free + p.inflight ∧
      q.inflight + countEv SemEvent.release tr =
        p.inflight + countEv SemEvent.acquire tr := by
  intro tr
  induction tr with
  | nil =>
    intro p q h
    simp [semRun] at h
    subst h
    simp [countEv]
  | cons e tl ih =>
    intro p q h
    cases e with
    | acquire =>
      by_cases hf : p.free = 0
      · simp [semRun, semStep, hf] at h
      · simp only [semRun, semStep, hf, if_false] at h
        obtain ⟨ha, hb⟩ := ih _ _ h
        simp [countEv] at *
        constructor <;> omega
    | release =>
      by_cases hf : p.inflight = 0
      · simp [semRun, semStep, hf] at h
      · simp only [semRun, semStep, hf, if_false] at h
        obtain ⟨ha, hb⟩ := ih _ _ h
        simp [countEv] at *
        constructor <;> omega

/-- C2: every run of the recognize pipeline either never enters the
admission region (an early failure) or performs exactly one acquire
followed by one release, for every oracle behaviour including engine
failure; and in the slot-pool transition system starting from the
configured number of free slots, every reachable pool keeps
`free + inflight` equal to the limit (so at most `limit` invocations are
in flight), and any balanced trace returns the pool to exactly the
configured number of free slots. -/
theorem C2_slot_discipline :
    (∀ fast parse maxLen ocrOk engine req,
      (recognizeApp fast parse maxLen ocrOk engine req).semEvents = [] ∨
      (recognizeApp fast parse maxLen ocrOk engine req).semEvents =
        [SemEvent.acquire, SemEvent.release]) ∧
    (∀ (limit : Nat) (tr : List SemEvent) (p : SemPool),
      semRun ⟨limit, 0⟩ tr = some p →
      p.free + p.inflight = limit ∧ p.inflight ≤ limit ∧
      (countEv SemEvent.acquire tr = countEv SemEvent.release tr →
        p.free = limit ∧ p.inflight = 0)) := by
  constructor
  · exact recognizeApp_semEvents
  · intro limit tr p h
    obtain ⟨h1, h2⟩ := semRun_counts tr ⟨limit, 0⟩ p h
    simp only at h1 h2
    refine ⟨by omega, by omega, fun hb => by constructor <;> omega⟩

/-- C2 witness: a run that reaches the engine performs exactly one
acquire-release pair, and the pool of 4 slots is restored to 4 free and 0
in flight after that balanced trace. -/
theorem C2_witness :
    (recognizeApp (fun _ => FastDecodeResult.raised)
        (fun _ => ParseResult.ok ⟨ColorMode.other 1, 2⟩) 100 true
        (fun _ _ => EngRes.ok none)
        ⟨true, true, ("AAAAAAAAAAAA".toList)⟩).semEvents =
      [SemEvent.acquire, SemEvent.release] ∧
    semRun ⟨4, 0⟩ [SemEvent.acquire, SemEvent.release] = some ⟨4, 0⟩ ∧
    (4 : Nat) = 4 ∧ (0 : Nat) = 0 :=
  ⟨(C2_slot_discipline.1 (fun _ => FastDecodeResult.raised)
      (fun _ => ParseResult.ok ⟨ColorMode.other 1, 2⟩) 100 true
      (fun _ _ => EngRes.ok none)
      ⟨true, true, ("AAAAAAAAAAAA".toList)⟩).resolve_left (by decide),
    by decide,
    ((C2_slot_discipline.2 4 [SemEvent.acquire, SemEvent.release] ⟨4, 0⟩
        (by decide)).2.2 (by decide)).1,
    ((C2_slot_discipline.2 4 [SemEvent.acquire, SemEvent.release] ⟨4, 0⟩
        (by decide)).2.2 (by decide)).2⟩

theorem recognizeApp_success_shape :
    ∀ fast parse maxLen ocrOk engine req,
      (recognizeApp fast parse maxLen ocrOk engine req).resp.success = true →
      ∃ raw, (classifyRun engine).1 = EngRes.ok raw ∧
        (recognizeApp fast parse maxLen ocrOk engine req).resp =
          ⟨true, 200, MsgTag.recognized, some (filterAlnum (pyStrOr raw)),
            some (filterAlnum (pyStrOr raw)).length⟩ := by
  intro fast parse maxLen ocrOk engine req hs
  by_cases h1 : req.isJson = false
  · simp [recognizeApp, h1] at hs
  by_cases h2 : req.hasB64Field = false
  · simp [recognizeApp, h1, h2] at hs
  by_cases h3 : req.b64.length < 10
  · simp [recognizeApp, h1, h2, h3] at hs
  cases hdec : decodeBase64ToImage fast parse maxLen (validateBase64App req.b64) with
  | valueErr e => simp [recognizeApp, h1, h2, h3, hdec] at hs
  | otherExn => simp [recognizeApp, h1, h2, h3, hdec] at hs
  | ok img =>
    by_cases h4 : ocrOk = false
    · simp [recognizeApp, h1, h2, h3, hdec, h4] at hs
    rcases hcr : classifyRun engine with ⟨r, shapes⟩
    cases r with
    | typeErr => simp [recognizeApp, h1, h2, h3, hdec, h4, hcr] at hs
    | otherErr => simp [recognizeApp, h1, h2, h3, hdec, h4, hcr] at hs
    | ok v =>
      refine ⟨v, rfl, ?_⟩
      simp [recognizeApp, h1, h2, h3, hdec, h4, hcr]

/-- C8: every successful recognition response carries exactly the raw
engine output filtered to ASCII letters and digits — an in-order
subsequence of the raw output in which every character is alphanumeric —
and its length field equals the length of that filtered text. -/
theorem C8_alnum_postprocess :
    ∀ fast parse maxLen ocrOk engine req,
      (recognizeApp fast parse maxLen ocrOk engine req).resp.success = true →
      ∃ raw, (classifyRun engine).1 = EngRes.ok raw ∧
        (recognizeApp fast parse maxLen ocrOk engine req).resp.captcha =
          some (filterAlnum (pyStrOr raw)) ∧
        (recognizeApp fast parse maxLen ocrOk engine req).resp.lengthField =
          some (filterAlnum (pyStrOr raw)).length ∧
        List.Sublist (filterAlnum (pyStrOr raw)) (pyStrOr raw) ∧
        (∀ c ∈ filterAlnum (pyStrOr raw), isAsciiAlnum c = true) := by
  intro fast parse maxLen ocrOk engine req hs
  obtain ⟨raw, hcr, hresp⟩ :=
    recognizeApp_success_shape fast parse maxLen ocrOk engine req hs
  refine ⟨raw, hcr, by rw [hresp], by rw [hresp], List.filter_sublist _, ?_⟩
  intro c hc
  exact (List.mem_filter.mp hc).2

/-- C8 witness: an engine output with spaces and punctuation yields the
filtered captcha text `ab3` of length 3. -/
theorem C8_witness :
    (recognizeApp (fun _ => FastDecodeResult.raised)
        (fun _ => ParseResult.ok ⟨ColorMode.other 1, 2⟩) 99 true
        (fun _ _ => EngRes.ok (some (" ab!3".toList)))
        ⟨true, true, ("QQQQQQQQQQQQ".toList)⟩).resp.success = true ∧
    ∃ raw,
      (classifyRun (fun _ _ => EngRes.ok (some (" ab!3".toList)))).1 = EngRes.ok raw ∧
      (recognizeApp (fun _ => FastDecodeResult.raised)
          (fun _ => ParseResult.ok ⟨ColorMode.other 1, 2⟩) 99 true
          (fun _ _ => EngRes.ok (some (" ab!3".toList)))
          ⟨true, true, ("QQQQQQQQQQQQ".toList)⟩).resp.captcha =
        some (filterAlnum (pyStrOr raw)) ∧
      (recognizeApp (fun _ => FastDecodeResult.raised)
          (fun _ => ParseResult.ok ⟨ColorMode.other 1, 2⟩) 99 true
          (fun _ _ => EngRes.ok (some (" ab!3".toList)))
          ⟨true, true, ("QQQQQQQQQQQQ".toList)⟩).resp.lengthField =
        some (filterAlnum (pyStrOr raw)).length ∧
      List.Sublist (filterAlnum (pyStrOr raw)) (pyStrOr raw) ∧
      (∀ c ∈ filterAlnum (pyStrOr raw), isAsciiAlnum c = true) :=
  ⟨by decide,
    C8_alnum_postprocess (fun _ => FastDecodeResult.raised)
      (fun _ => ParseResult.ok ⟨ColorMode.other 1, 2⟩) 99 true
      (fun _ _ => EngRes.ok (some (" ab!3".toList)))
      ⟨true, true, ("QQQQQQQQQQQQ".toList)⟩ (by decide)⟩

/-- C10: when the engine call completes and returns `None` or the empty
string, the pipeline still answers with the success outcome — code 200,
empty captcha text, length 0 — not with an error. -/
theorem C10_empty_result_success :
    ∀ fast parse maxLen engine req img,
      req.isJson = true → req.hasB64Field = true → ¬ req.b64.length < 10 →
      decodeBase64ToImage fast parse maxLen (validateBase64App req.b64) =
        DecodeResult.ok img →
      ((classifyRun engine).1 = EngRes.ok none ∨
        (classifyRun engine).1 = EngRes.ok (some [])) →
      (recognizeApp fast parse maxLen true engine req).resp =
        ⟨true, 200, MsgTag.recognized, some [], some 0⟩ := by
  intro fast parse maxLen engine req img h1 h2 h3 hdec hv
  rcases hcr : classifyRun engine with ⟨r, shapes⟩
  rw [hcr] at hv
  simp only at hv
  rcases hv with hv | hv <;> subst hv <;>
    simp [recognizeApp, h1, h2, h3, hdec, hcr, filterAlnum, pyStrOr]

/-- C10 witness: an engine returning `None` on a well-formed request
yields the 200 success outcome with empty text and length 0. -/
theorem C10_witness :
    (recognizeApp (fun _ => FastDecodeResult.raised)
        (fun _ => ParseResult.ok ⟨ColorMode.other 2, 5⟩) 99 true
        (fun _ _ => EngRes.ok none)
        ⟨true, true, ("QQQQQQQQQQQQ".toList)⟩).resp =
      ⟨true, 200, MsgTag.recognized, some [], some 0⟩ :=
  C10_empty_result_success (fun _ => FastDecodeResult.raised)
    (fun _ => ParseResult.ok ⟨ColorMode.other 2, 5⟩) 99
    (fun _ _ => EngRes.ok none) ⟨true, true, ("QQQQQQQQQQQQ".toList)⟩
    ⟨ColorMode.rgb, 5⟩ (by decide) (by decide) (by decide) (by decide)
    (Or.inl (by decide))

theorem LInv_lstep (s : LState) (i : Nat) (h : LInv s) : LInv (lstep s i) := by
  obtain ⟨h1, h2, h3, h4, h5, h6, h7⟩ := h
  unfold lstep
  by_cases hp0 : (s.threads i).pc = 0
  · rw [if_pos hp0]
    cases hl : s.lock with
    | some k => exact ⟨h1, h2, h3, h4, h5, h6, h7⟩
    | none =>
      refine ⟨h1, h2, ?_, ?_, ?_, ?_, ?_⟩
      · intro j hj
        by_cases hji : j = i
        · subst hji; simp
        · simp only [updateAt, hji, if_false] at hj ⊢
          have hlk := h3 j hj
          rw [hl] at hlk
          simp at hlk
      · intro j hj hsn
        by_cases hji : j = i
        · subst hji; simp [updateAt] at hj
        · simp only [updateAt, hji, if_false] at hj hsn ⊢
          exact h4 j hj hsn
      · intro j hj hsn
        by_cases hji : j = i
        · subst hji; simp [updateAt] at hj
        · simp only [updateAt, hji, if_false] at hj hsn ⊢
          exact h5 j hj hsn
      · intro j hj
        by_cases hji : j = i
        · subst hji; simp [updateAt] at hj
        · simp only [updateAt, hji, if_false] at hj ⊢
          exact h6 j hj
      · intro j hj
        by_cases hji : j = i
        · subst hji; simp [updateAt] at hj
        · simp only [updateAt, hji, if_false] at hj ⊢
          exact h7 j hj
  · rw [if_neg hp0]
    by_cases hp1 : (s.threads i).pc = 1
    · rw [if_pos hp1]
      refine ⟨h1, h2, ?_, ?_, ?_, ?_, ?_⟩
      · intro j hj
        by_cases hji : j = i
        · subst hji
          exact h3 j (Or.inl hp1)
        · simp only [updateAt, hji, if_false] at hj ⊢
          exact h3 j hj
      · intro j hj hsn
        by_cases hji : j = i
        · subst hji
          simp only [updateAt, if_pos rfl] at hsn
          exact Option.isNone_iff_eq_none.mp hsn
        · simp only [updateAt, hji, if_false] at hj hsn ⊢
          exact h4 j hj hsn
      · intro j hj hsn
        by_cases hji : j = i
        · subst hji
          simp only [updateAt, if_pos rfl] at hsn
          cases ho : s.inst with
          | none => rw [ho] at hsn; simp at hsn
          | some x => simp
        · simp only [updateAt, hji, if_false] at hj hsn ⊢
          exact h5 j hj hsn
      · intro j hj
        by_cases hji : j = i
        · subst hji; simp [updateAt] at hj
        · simp only [updateAt, hji, if_false] at hj ⊢
          exact h6 j hj
      · intro j hj
        by_cases hji : j = i
        · subst hji; simp [updateAt] at hj
        · simp only [updateAt, hji, if_false] at hj ⊢
          exact h7 j hj
    · rw [if_neg hp1]
      by_cases hp2 : (s.threads i).pc = 2
      · rw [if_pos hp2]
        by_cases hsw : (s.threads i).sawNone = true
        · rw [if_pos hsw]
          have hin : s.inst = none := h4 i hp2 hsw
          have hc0 : s.cons = 0 := by
            rw [hin] at h2
            simp at h2
            omega
          refine ⟨by show s.cons + 1 ≤ 1; omega, by simp; omega, ?_, ?_, ?_, ?_, ?_⟩
          · intro j hj
            by_cases hji : j = i
            · subst hji
              exact h3 j (Or.inr (Or.inl hp2))
            · simp only [updateAt, hji, if_false] at hj ⊢
              exact h3 j hj
          · intro j hj hsn
            by_cases hji : j = i
            · subst hji; simp [updateAt] at hj
            · simp only [updateAt, hji, if_false] at hj hsn ⊢
              have hlj := h3 j (Or.inr (Or.inl hj))
              have hli := h3 i (Or.inr (Or.inl hp2))
              rw [hli] at hlj
              simp at hlj
              exact absurd hlj.symm hji
          · intro j hj hsn
            simp
          · intro j hj
            simp
          · intro j hj
            by_cases hji : j = i
            · subst hji; simp [updateAt] at hj
            · simp only [updateAt, hji, if_false] at hj ⊢
              have := (h7 j hj).2
              rw [hin] at this
              simp at this
        · rw [if_neg hsw]
          have hsw2 : (s.threads i).sawNone = false := by
            cases hb : (s.threads i).sawNone
            · rfl
            · exact absurd hb hsw
          have hsome : s.inst.isSome = true := h5 i hp2 hsw2
          refine ⟨h1, h2, ?_, ?_, ?_, ?_, ?_⟩
          · intro j hj
            by_cases hji : j = i
            · subst hji
              exact h3 j (Or.inr (Or.inl hp2))
            · simp only [updateAt, hji, if_false] at hj ⊢
              exact h3 j hj
          · intro j hj hsn
            by_cases hji : j = i
            · subst hji; simp [updateAt] at hj
            · simp only [updateAt, hji, if_false] at hj hsn ⊢
              exact h4 j hj hsn
          · intro j hj hsn
            by_cases hji : j = i
            · subst hji; simp [updateAt] at hj
            · simp only [updateAt, hji, if_false] at hj hsn ⊢
              exact h5 j hj hsn
          · intro j hj
            by_cases hji : j = i
            · subst hji
              exact hsome
            · simp only [updateAt, hji, if_false] at hj ⊢
              exact h6 j hj
          · intro j hj
            by_cases hji : j = i
            · subst hji; simp [updateAt] at hj
            · simp only [updateAt, hji, if_false] at hj ⊢
              exact h7 j hj
      · rw [if_neg hp2]
        by_cases hp3 : (s.threads i).pc = 3
        · rw [if_pos hp3]
          have hsome : s.inst.isSome = true := h6 i hp3
          refine ⟨h1, h2, ?_, ?_, ?_, ?_, ?_⟩
          · intro j hj
            by_cases hji : j = i
            · subst hji; simp [updateAt] at hj
            · simp only [updateAt, hji, if_false] at hj ⊢
              have hlj := h3 j hj
              have hli := h3 i (Or.inr (Or.inr hp3))
              rw [hli] at hlj
              simp at hlj
              exact absurd hlj.symm hji
          · intro j hj hsn
            by_cases hji : j = i
            · subst hji; simp [updateAt] at hj
            · simp only [updateAt, hji, if_false] at hj hsn ⊢
              exact h4 j hj hsn
          · intro j hj hsn
            by_cases hji : j = i
            · subst hji; simp [updateAt] at hj
            · simp only [updateAt, hji, if_false] at hj hsn ⊢
              exact h5 j hj hsn
          · intro j hj
            by_cases hji : j = i
            · subst hji; simp [updateAt] at hj
            · simp only [updateAt, hji, if_false] at hj ⊢
              exact h6 j hj
          · intro j hj
            by_cases hji : j = i
            · subst hji
              exact ⟨by simp [updateAt], hsome⟩
            · simp only [updateAt, hji, if_false] at hj ⊢
              exact h7 j hj
        · rw [if_neg hp3]
          exact ⟨h1, h2, h3, h4, h5, h6, h7⟩

theorem LInv_linit : LInv linit := by
  refine ⟨?_, ?_, ?_, ?_, ?_, ?_, ?_⟩
  · simp [linit]
  · simp [linit]
  · intro j hj; simp [linit] at hj
  · intro j hj; simp [linit] at hj
  · intro j hj; simp [linit] at hj
  · intro j hj; simp [linit] at hj
  · intro j hj; simp [linit] at hj

theorem LInv_lrun (sched : List Nat) : LInv (lrun sched) := by
  have main : ∀ (l : List Nat) (s : LState), LInv s → LInv (l.foldl lstep s) := by
    intro l
    induction l with
    | nil => intro s hs; exact hs
    | cons a tl ih => intro s hs; exact ih _ (LInv_lstep s a hs)
  exact main sched linit LInv_linit

/-- C1 (amended): in src/app.py's `get_ocr` the construction happens
inside the `_ocr_lock` critical section, so under every thread
interleaving at most one construction ever occurs and all completed calls
return the same non-null handle; src/server.py's `get_ocr`, by contrast,
performs an unguarded check-then-construct (see `C1_counterexample`). -/
theorem C1_locked_singleton :
    ∀ sched : List Nat,
      (lrun sched).cons ≤ 1 ∧
      (∀ i j, ((lrun sched).threads i).pc = 4 → ((lrun sched).threads j).pc = 4 →
        ((lrun sched).threads i).result = ((lrun sched).threads j).result ∧
        ((lrun sched).threads i).result ≠ none) := by
  intro sched
  obtain ⟨h1, h2, h3, h4, h5, h6, h7⟩ := LInv_lrun sched
  refine ⟨h1, ?_⟩
  intro i j hi hj
  obtain ⟨ri, _⟩ := h7 i hi
  obtain ⟨rj, hsome⟩ := h7 j hj
  refine ⟨by rw [ri, rj], ?_⟩
  rw [ri]
  intro hn
  rw [hn] at hsome
  simp at hsome

/-- C1 witness: under the schedule where thread 0 runs its four steps and
then thread 1 runs its four steps, both calls complete and return the one
constructed handle. -/
theorem C1_witness :
    ((lrun [0, 0, 0, 0, 1, 1, 1, 1]).threads 0).pc = 4 ∧
    ((lrun [0, 0, 0, 0, 1, 1, 1, 1]).threads 1).pc = 4 ∧
    (((lrun [0, 0, 0, 0, 1, 1, 1, 1]).threads 0).result =
        ((lrun [0, 0, 0, 0, 1, 1, 1, 1]).threads 1).result ∧
      ((lrun [0, 0, 0, 0, 1, 1, 1, 1]).threads 0).result ≠ none) :=
  ⟨by decide, by decide,
    (C1_locked_singleton [0, 0, 0, 0, 1, 1, 1, 1]).2 0 1 (by decide) (by decide)⟩
